import Mathlib

/-!
Verification of the server-side handshake-completion dispatcher of the fizz
demonstration TLS server (`fizz/tool/FizzServerCommand.cpp`).

The development shallowly embeds the data model and operations of that file:
hex encoding/decoding as used by `folly::hexlify` / `folly::unhexlify`, the
key-log forwarding logic of `FizzExampleServer::handshakeSuccessLog`, the
native/legacy transport slots and the fallback transition, the HTTP probe
responder, the connection acceptor, the ECH decrypter construction and the
delegated-credential key-type dispatch.  External collaborators that live in
the fizz/folly libraries rather than in this file are modelled from the spec
and marked as such in their doc comments.
-/

namespace FizzTool

/-! ## Hex encoding (folly::hexlify / folly::unhexlify)

`folly::unhexlify` decodes via a 256-entry table accepting `0-9`, `a-f` and
`A-F`; `folly::hexlify` always emits lowercase digits.  Bytes are `Nat`s
(< 256 by construction of the decoder). -/

/-- Value of a single hex digit, as in folly's decoding table: digits,
lowercase and uppercase letters are accepted, everything else is rejected. -/
def hexVal : Char → Option Nat
  | 'a' => .some 10
  | 'b' => .some 11
  | 'c' => .some 12
  | 'd' => .some 13
  | 'e' => .some 14
  | 'f' => .some 15
  | 'A' => .some 10
  | 'B' => .some 11
  | 'C' => .some 12
  | 'D' => .some 13
  | 'E' => .some 14
  | 'F' => .some 15
  | '0' => .some 0
  | '1' => .some 1
  | '2' => .some 2
  | '3' => .some 3
  | '4' => .some 4
  | '5' => .some 5
  | '6' => .some 6
  | '7' => .some 7
  | '8' => .some 8
  | '9' => .some 9
  | _ => .none

/-- Decode a hex character list two digits per byte (`folly::unhexlify`);
fails on an odd length or a non-hex character. -/
def unhexChars : List Char → Option (List Nat)
  | [] => some []
  | [_] => none
  | c1 :: c2 :: rest =>
    match hexVal c1, hexVal c2, unhexChars rest with
    | some h, some l, some bs => some ((16 * h + l) :: bs)
    | _, _, _ => none

/-- `folly::unhexlify` on a string. -/
def unhexlify (s : String) : Option (List Nat) :=
  unhexChars s.data

/-- Lowercase hex digit for a nibble (`folly::hexlify` emits lowercase). -/
def hexDigitChar (n : Nat) : Char :=
  if n < 10 then Char.ofNat ('0'.toNat + n) else Char.ofNat ('a'.toNat + (n - 10))

/-- The two lowercase hex digits of one byte. -/
def hexlifyByte (b : Nat) : List Char :=
  [hexDigitChar (b / 16), hexDigitChar (b % 16)]

/-- Hex characters of a byte list. -/
def hexChars (bs : List Nat) : List Char :=
  (bs.map hexlifyByte).flatten

/-- `folly::hexlify`: lowercase hex string of a byte list. -/
def hexlify (bs : List Nat) : String :=
  ⟨hexChars bs⟩

/-- Lowercasing restricted to the hex alphabet: uppercase `A`-`F` map to
`a`-`f`, all other characters are kept. -/
def lowerHexChar : Char → Char
  | 'A' => 'a'
  | 'B' => 'b'
  | 'C' => 'c'
  | 'D' => 'd'
  | 'E' => 'e'
  | 'F' => 'f'
  | c => c

/-- Hex-alphabet lowercasing of a string. -/
def lowerHex (s : String) : String :=
  ⟨s.data.map lowerHexChar⟩

/-! ## ECH decrypter construction (`createKeyExchange`, `setupDecrypterFromInputs`,
`setupDefaultDecrypter`) -/

/-- Error taxonomy of the ECH setup path (spec §7): bad/missing setup input,
unknown KEM id or key type, file-read failure. -/
inductive EchSetupError
  | ConfigError
  | UnsupportedAlgorithm
  | IOError
deriving DecidableEq

instance exceptDecEq {ε α : Type} [DecidableEq ε] [DecidableEq α] :
    DecidableEq (Except ε α) := fun x y =>
  match x, y with
  | .ok a, .ok b =>
    if h : a = b then .isTrue (by rw [h])
    else .isFalse (by intro hc; exact h (Except.ok.inj hc))
  | .error a, .error b =>
    if h : a = b then .isTrue (by rw [h])
    else .isFalse (by intro hc; exact h (Except.error.inj hc))
  | .ok _, .error _ => .isFalse (by intro hc; exact Except.noConfusion hc)
  | .error _, .ok _ => .isFalse (by intro hc; exact Except.noConfusion hc)

/-- ECH config descriptor (`ech::ECHConfig`); its contents are opaque to this
development, so descriptors are represented by tags. -/
abbrev ECHConfig := Nat

/-- Modelled from the spec: CertUtils::readPrivateKeyFromBuffer
(fizz/protocol, not under src/) parses a PEM private key from a buffer; the
parsed key is identified here by the buffer it came from. -/
structure EvpPkey where
  pem : String
deriving DecidableEq

/-- The three elliptic curves handled by the PEM branches of
`createKeyExchange`. -/
inductive ECCurve
  | P256
  | P384
  | P521
deriving DecidableEq

/-- Key exchange object produced by `createKeyExchange`: either an
`OpenSSLECKeyExchange<T>` holding a PEM-loaded private key, or an
`X25519KeyExchange` holding raw private/public key bytes. -/
inductive KeyExchange
  | opensslEC (curve : ECCurve) (privKey : EvpPkey)
  | x25519KX (privKey pubKey : List Nat)
deriving DecidableEq

/-- `hpke::KEMId` values as seen by `createKeyExchange`'s switch.  `otherKem`
stands for any identifier of the enumeration (defined in fizz/crypto/hpke,
not under src/) beyond the four named ones; all of those reach the switch's
`default` branch. -/
inductive KEMId
  | secp256r1
  | secp384r1
  | secp521r1
  | x25519
  | otherKem
deriving DecidableEq

/-- Modelled from the spec: OpenSSLECKeyExchange::setPrivateKey
(fizz/crypto/exchange, not under src/) validates the provided key; an absent
key — the result of an unreadable key file (spec §7: IOError) — is
rejected. -/
def OpenSSLECKeyExchange.setPrivateKey (curve : ECCurve) (key : Option EvpPkey) :
    Except EchSetupError KeyExchange :=
  match key with
  | some k => .ok (.opensslEC curve k)
  | none => .error .IOError

/-- Modelled from the spec: X25519KeyExchange::setKeyPair
(fizz/crypto/exchange, not under src/) requires 32-byte private and public
keys; an unreadable key file reads as empty strings and is rejected (spec §7:
IOError). -/
def X25519KeyExchange.setKeyPair (privKey pubKey : List Nat) :
    Except EchSetupError KeyExchange :=
  if privKey.length = 32 ∧ pubKey.length = 32 then
    .ok (.x25519KX privKey pubKey)
  else
    .error .IOError

/-- Lambda `getPrivateKey` inside `createKeyExchange`: read the key file and
parse it as a PEM private key; if the file cannot be read the pointer stays
null.  The file is `none` when unreadable, `some text` otherwise. -/
def getPrivateKey (echPrivateKeyFile : Option String) : Option EvpPkey :=
  match echPrivateKeyFile with
  | some keyData => some ⟨keyData⟩
  | none => none

/-- Whitespace test of `std::istream` token extraction. -/
def isStreamSpace (c : Char) : Bool :=
  c = ' ' ∨ c = '\n' ∨ c = '\t' ∨ c = '\r'

/-- Maximal non-whitespace runs of a character list, accumulator-passing. -/
def splitTokensAux : List Char → List Char → List String
  | [], acc => if acc.isEmpty then [] else [⟨acc.reverse⟩]
  | c :: cs, acc =>
    if isStreamSpace c then
      if acc.isEmpty then splitTokensAux cs []
      else ⟨acc.reverse⟩ :: splitTokensAux cs []
    else
      splitTokensAux cs (c :: acc)

/-- Whitespace-separated tokens of a file, as consecutive `infile >> s`
extractions produce them; an unreadable file yields no tokens, so the
extracted strings stay empty. -/
def fileTokens (file : Option String) : List String :=
  match file with
  | none => []
  | some text => splitTokensAux text.data []

/-- `createKeyExchange(kemId, echPrivateKeyFile)`: dispatch on the KEM id.
The three secp curves load a PEM private key into an elliptic-curve key
exchange; x25519 reads two hex tokens (private key first, public key second)
into a raw key exchange; any other id reaches the `default` branch and yields
no key exchange (source returns nullptr, modelled as `.ok none`).  Failures
raised by the key-material handling surface as `.error`. -/
def createKeyExchange (kemId : KEMId) (echPrivateKeyFile : Option String) :
    Except EchSetupError (Option KeyExchange) :=
  match kemId with
  | .secp256r1 =>
    match OpenSSLECKeyExchange.setPrivateKey .P256 (getPrivateKey echPrivateKeyFile) with
    | .ok kex => .ok (some kex)
    | .error e => .error e
  | .secp384r1 =>
    match OpenSSLECKeyExchange.setPrivateKey .P384 (getPrivateKey echPrivateKeyFile) with
    | .ok kex => .ok (some kex)
    | .error e => .error e
  | .secp521r1 =>
    match OpenSSLECKeyExchange.setPrivateKey .P521 (getPrivateKey echPrivateKeyFile) with
    | .ok kex => .ok (some kex)
    | .error e => .error e
  | .x25519 =>
    let privKeyStr := (fileTokens echPrivateKeyFile).getD 0 ""
    let pubKeyStr := (fileTokens echPrivateKeyFile).getD 1 ""
    match unhexlify privKeyStr, unhexlify pubKeyStr with
    | some priv, some pub =>
      match X25519KeyExchange.setKeyPair priv pub with
      | .ok kex => .ok (some kex)
      | .error e => .error e
    | _, _ => .error .IOError
  | .otherKem => .ok none

/-- One ECH decryption config: a config descriptor paired with the key
exchange holding its private key (`ech::DecrypterParams`). -/
structure DecrypterParams where
  config : ECHConfig
  kex : KeyExchange
deriving DecidableEq

/-- `ech::ECHConfigManager` holding its ordered decryption configs. -/
structure ECHConfigManager where
  configs : List DecrypterParams
deriving DecidableEq

/-- Modelled from the spec: readECHConfigsJson and parseECHConfigs (fizz tool
common, not under src/).  A `none` document stands for an unreadable or
syntactically invalid JSON file; otherwise `kemIdStr` is the
`echconfigs[0].kem_id` string of the document and `parsed` is the result of
parseECHConfigs (`none` when the document does not yield ECH configs). -/
structure EchConfigsJson where
  kemIdStr : String
  parsed : Option (List ECHConfig)

/-- Modelled from the spec: getKEMId (fizz tool common, not under src/) maps
a kem_id string to the KEM identifier; strings naming no supported KEM give
an identifier outside the four handled ones. -/
def getKEMId : String → KEMId
  | "secp256r1" => .secp256r1
  | "secp384r1" => .secp384r1
  | "secp521r1" => .secp521r1
  | "x25519" => .x25519
  | _ => .otherKem

/-- `setupDecrypterFromInputs(echConfigsFile, echPrivateKeyFile)`: load and
parse the config JSON (each failure returns null, modelled `.ConfigError`),
take the first config, build the key exchange for its KEM id (null — the
unsupported-KEM default branch — makes the whole setup fail), and return a
decrypter holding exactly that one decryption config. -/
def setupDecrypterFromInputs (echConfigsFile : Option EchConfigsJson)
    (echPrivateKeyFile : Option String) : Except EchSetupError ECHConfigManager :=
  match echConfigsFile with
  | none => .error .ConfigError
  | some json =>
    match json.parsed with
    | none => .error .ConfigError
    | some gotECHConfigs =>
      let gotConfig := gotECHConfigs.headI
      let kemId := getKEMId json.kemIdStr
      match createKeyExchange kemId echPrivateKeyFile with
      | .error e => .error e
      | .ok none => .error .UnsupportedAlgorithm
      | .ok (some kexWithPrivateKey) => .ok ⟨[⟨gotConfig, kexWithPrivateKey⟩]⟩

/-- Modelled from the spec: getDefaultECHConfigs (fizz tool common, not under
src/) supplies the default ECH config descriptors; only descriptor tags are
visible here. -/
def getDefaultECHConfigs : List ECHConfig := [0]

/-- First fixed hex constant of `setupDefaultDecrypter` (private key). -/
def defaultEchPrivHex : String :=
  "8c490e5b0c7dbe0c6d2192484d2b7a0423b3b4544f2481095a99dbf238fb350f"

/-- Second fixed hex constant of `setupDefaultDecrypter` (public key). -/
def defaultEchPubHex : String :=
  "8a07563949fac6232936ed6f36c4fa735930ecdeaef6734e314aeac35a56fd0a"

/-- `setupDefaultDecrypter()`: build an x25519 key exchange from the two
fixed hex constants and pair it with the first default ECH config.  The
source never fails here; the `Option` only reflects the modelled key-size
validation of `setKeyPair`. -/
def setupDefaultDecrypter : Option ECHConfigManager :=
  let defaultPrivateKey := (unhexlify defaultEchPrivHex).getD []
  let defaultPublicKey := (unhexlify defaultEchPubHex).getD []
  let chosenConfig := getDefaultECHConfigs.headI
  match X25519KeyExchange.setKeyPair defaultPrivateKey defaultPublicKey with
  | .ok kex => some ⟨[⟨chosenConfig, kex⟩]⟩
  | .error _ => none

/-! ## Server context, key log and the handshake summary -/

/-- Process-wide `FizzServerContext` subset used by the summary block: whether
an ECH decrypter was configured on the context. -/
structure TLSContext where
  echDecrypter : Option ECHConfigManager
deriving DecidableEq

/-- ECH fragment of `fizzServerCommand`: when an ECH configs file is given,
build the decrypter from the inputs; a null decrypter logs and returns exit
code 1, otherwise the decrypter is installed on the context.  Errors raised
inside the key-material handling also abort startup. -/
def fizzServerCommandEchSetup (echConfigsFile : Option EchConfigsJson)
    (echPrivateKeyFile : Option String) (ctx : TLSContext) : Except Nat TLSContext :=
  match setupDecrypterFromInputs echConfigsFile echPrivateKeyFile with
  | .error _ => .error 1
  | .ok decrypter => .ok { ctx with echDecrypter := some decrypter }

/-- Modelled from the spec: KeyLogWriter::write (fizz/util, not under src/)
appends one line `<LABEL> <64-hex client random> <hex secret>` per call; a
line is kept as its three fields. -/
structure KeyLogLine where
  label : String
  clientRandomHex : String
  secretHex : String
deriving DecidableEq

/-- Key-log side of `FizzServerAcceptor`: whether `-keylog` installed a
`KeyLogWriter` (`keyLogger_`), and the lines appended so far. -/
structure KeyLogState where
  hasLogger : Bool
  lines : List KeyLogLine
deriving DecidableEq

/-- `FizzServerAcceptor::writeKeyLog`: forward to the key-log writer if one is
installed, otherwise do nothing. -/
def writeKeyLog (k : KeyLogState) (clientRandom : List Nat) (label : String)
    (secret : List Nat) : KeyLogState :=
  if k.hasLogger then
    { k with lines := k.lines ++ [⟨label, hexlify clientRandom, hexlify secret⟩] }
  else
    k

/-- Number of key-log lines carrying a given label. -/
def countLabel (lines : List KeyLogLine) (lab : String) : Nat :=
  (lines.filter (fun l => l.label = lab)).length

/-- The ten optional per-label secrets retained by the `SecretCollector`
members of `FizzExampleServer`. -/
structure Secrets where
  clientEarlyTrafficSecret : Option (List Nat) := none
  clientHandshakeTrafficSecret : Option (List Nat) := none
  serverHandshakeTrafficSecret : Option (List Nat) := none
  exporterMasterSecret : Option (List Nat) := none
  clientAppTrafficSecret : Option (List Nat) := none
  serverAppTrafficSecret : Option (List Nat) := none
  externalPskBinder : Option (List Nat) := none
  resumptionPskBinder : Option (List Nat) := none
  earlyExporterSecret : Option (List Nat) := none
  resumptionMasterSecret : Option (List Nat) := none
deriving DecidableEq

/-- The secret labels of the derivation event stream. -/
inductive SecretLabel
  | clientEarlyTraffic
  | clientHandshakeTraffic
  | serverHandshakeTraffic
  | exporterMaster
  | clientAppTraffic
  | serverAppTraffic
  | externalPsk
  | resumptionPsk
  | earlyExporter
  | resumptionMaster
deriving DecidableEq

/-- Modelled from the spec: SecretCollector (fizz/server, not under src/)
stores each arriving (label, secret) event under its label if that label is
still unset; a populated label is never overwritten. -/
def Secrets.store (sec : Secrets) (l : SecretLabel) (bytes : List Nat) : Secrets :=
  match l with
  | .clientEarlyTraffic =>
    if sec.clientEarlyTrafficSecret.isSome then sec
    else { sec with clientEarlyTrafficSecret := some bytes }
  | .clientHandshakeTraffic =>
    if sec.clientHandshakeTrafficSecret.isSome then sec
    else { sec with clientHandshakeTrafficSecret := some bytes }
  | .serverHandshakeTraffic =>
    if sec.serverHandshakeTrafficSecret.isSome then sec
    else { sec with serverHandshakeTrafficSecret := some bytes }
  | .exporterMaster =>
    if sec.exporterMasterSecret.isSome then sec
    else { sec with exporterMasterSecret := some bytes }
  | .clientAppTraffic =>
    if sec.clientAppTrafficSecret.isSome then sec
    else { sec with clientAppTrafficSecret := some bytes }
  | .serverAppTraffic =>
    if sec.serverAppTrafficSecret.isSome then sec
    else { sec with serverAppTrafficSecret := some bytes }
  | .externalPsk =>
    if sec.externalPskBinder.isSome then sec
    else { sec with externalPskBinder := some bytes }
  | .resumptionPsk =>
    if sec.resumptionPskBinder.isSome then sec
    else { sec with resumptionPskBinder := some bytes }
  | .earlyExporter =>
    if sec.earlyExporterSecret.isSome then sec
    else { sec with earlyExporterSecret := some bytes }
  | .resumptionMaster =>
    if sec.resumptionMasterSecret.isSome then sec
    else { sec with resumptionMasterSecret := some bytes }

/-- Negotiation results of the native handshake `State` consumed by the
summary block.  Optional fields render as `(none)` when absent; the
`toString` renderings of the engine's enums are kept as strings.
`echAccepted` records whether the connection actually performed ECH — the
summary never consults it. -/
structure ConnectionState where
  version : String
  cipher : String
  group : Option String
  sigScheme : Option String
  pskType : String
  pskMode : Option String
  keyExchangeType : String
  earlyDataType : String
  serverCertIdentity : Option String
  clientCertIdentity : Option String
  serverCertCompAlgo : Option String
  alpn : Option String
  clientRandom : List Nat
  echAccepted : Bool
  context : TLSContext
deriving DecidableEq

/-- Modelled from the spec: secretStr (fizz tool common, not under src/)
renders an optional secret for the summary block. -/
def secretStr : Option (List Nat) → String
  | some s => hexlify s
  | none => "(none)"

/-- One conditional key-log write of `handshakeSuccessLog`: forward when the
optional member is populated, as each `if (member_) writeKeyLog(...)` block
does. -/
def optWrite (k : KeyLogState) (r : List Nat) (label : String)
    (o : Option (List Nat)) : KeyLogState :=
  match o with
  | some s => writeKeyLog k r label s
  | none => k

/-- The six key-log writes at the top of
`FizzExampleServer::handshakeSuccessLog`, in source order: each populated
member among the six forwarded labels produces one `writeKeyLog` call with
the connection's client random. -/
def handshakeKeyLogWrites (k : KeyLogState) (st : ConnectionState) (sec : Secrets) :
    KeyLogState :=
  let k := optWrite k st.clientRandom "CLIENT_EARLY_TRAFFIC_SECRET"
    sec.clientEarlyTrafficSecret
  let k := optWrite k st.clientRandom "CLIENT_HANDSHAKE_TRAFFIC_SECRET"
    sec.clientHandshakeTrafficSecret
  let k := optWrite k st.clientRandom "SERVER_HANDSHAKE_TRAFFIC_SECRET"
    sec.serverHandshakeTrafficSecret
  let k := optWrite k st.clientRandom "EXPORTER_SECRET"
    sec.exporterMasterSecret
  let k := optWrite k st.clientRandom "CLIENT_TRAFFIC_SECRET_0"
    sec.clientAppTrafficSecret
  let k := optWrite k st.clientRandom "SERVER_TRAFFIC_SECRET_0"
    sec.serverAppTrafficSecret
  k

/-- The fixed-schema summary lines returned by
`FizzExampleServer::handshakeSuccessLog`, in source order; the final line is
the ECH indicator, driven solely by the context's decrypter. -/
def handshakeSummaryLines (st : ConnectionState) (sec : Secrets) : List String :=
  [ "  TLS Version: " ++ st.version,
    "  Cipher Suite:  " ++ st.cipher,
    "  Named Group: " ++ st.group.getD "(none)",
    "  Signature Scheme: " ++ st.sigScheme.getD "(none)",
    "  PSK: " ++ st.pskType,
    "  PSK Mode: " ++ st.pskMode.getD "(none)",
    "  Key Exchange Type: " ++ st.keyExchangeType,
    "  Early: " ++ st.earlyDataType,
    "  Server identity: " ++ st.serverCertIdentity.getD "(none)",
    "  Client Identity: " ++ st.clientCertIdentity.getD "(none)",
    "  Server Certificate Compression: " ++ st.serverCertCompAlgo.getD "(none)",
    "  ALPN: " ++ st.alpn.getD "(none)",
    "  Client Random: " ++ hexlify st.clientRandom,
    "  Secrets:",
    "    External PSK Binder: " ++ secretStr sec.externalPskBinder,
    "    Resumption PSK Binder: " ++ secretStr sec.resumptionPskBinder,
    "    Early Exporter: " ++ secretStr sec.earlyExporterSecret,
    "    Early Client Data: " ++ secretStr sec.clientEarlyTrafficSecret,
    "    Client Handshake: " ++ secretStr sec.clientHandshakeTrafficSecret,
    "    Server Handshake: " ++ secretStr sec.serverHandshakeTrafficSecret,
    "    Exporter Master: " ++ secretStr sec.exporterMasterSecret,
    "    Resumption Master: " ++ secretStr sec.resumptionMasterSecret,
    "    Client Traffic: " ++ secretStr sec.clientAppTrafficSecret,
    "    Server Traffic: " ++ secretStr sec.serverAppTrafficSecret,
    if st.context.echDecrypter.isSome then
      "Encrypted client hello (ECH) is successful."
    else
      "" ]

/-- `FizzExampleServer::handshakeSuccessLog`: performs the key-log writes and
returns the summary lines. -/
def handshakeSuccessLog (k : KeyLogState) (st : ConnectionState) (sec : Secrets) :
    KeyLogState × List String :=
  (handshakeKeyLogWrites k st sec, handshakeSummaryLines st sec)

/-! ## Native/legacy transport slots of `FizzExampleServer` (fallback) -/

/-- The native TLS 1.3 transport (`AsyncFizzServer`), identified by the raw
socket file descriptor it owns. -/
structure NativeTransport where
  fd : Nat
deriving DecidableEq

/-- The legacy transport (`AsyncSSLSocket`): the wrapped raw socket, the
pre-received input installed via `setPreReceivedData`, and whether
`sslAccept` started the legacy handshake. -/
structure LegacySocket where
  fd : Nat
  preReceivedData : List Nat
  sslAccepting : Bool
deriving DecidableEq

/-- The two transport slots of `FizzExampleServer` (`transport_`,
`sslSocket_`) and the `connected_` flag. -/
structure ExampleServerConn where
  transport : Option NativeTransport
  sslSocket : Option LegacySocket
  connected : Bool
deriving DecidableEq

/-- Constructor state: the handler is created holding the native transport;
the legacy slot is empty. -/
def ExampleServerConn.start (t : NativeTransport) : ExampleServerConn :=
  ⟨some t, none, false⟩

/-- `FizzExampleServer::fizzHandshakeAttemptFallback`: detach the raw socket
from the native transport, discard the native transport
(`transport_.reset()`), then wrap the same descriptor in an `AsyncSSLSocket`
with the buffered client hello as pre-received data and start `sslAccept`.
`CHECK(transport_)` aborts the process when the native slot is empty, so no
state change is modelled there. -/
def fizzHandshakeAttemptFallback (c : ExampleServerConn) (clientHello : List Nat) :
    ExampleServerConn :=
  match c.transport with
  | some t =>
    { c with
      transport := none,
      sslSocket := some ⟨t.fd, clientHello, true⟩ }
  | none => c

/-- `fizzHandshakeSuccess`: register as reader and set `connected_`; the
slots are untouched. -/
def ExampleServerConn.handshakeSuccess (c : ExampleServerConn) : ExampleServerConn :=
  { c with connected := true }

/-- `handshakeSuc` (legacy success): register as reader and set
`connected_`; the slots are untouched. -/
def ExampleServerConn.fallbackSuccess (c : ExampleServerConn) : ExampleServerConn :=
  { c with connected := true }

/-- `FizzExampleServer::finish`: move the native transport out, clear the
legacy slot, close and notify the acceptor; both slots end empty. -/
def ExampleServerConn.finish (c : ExampleServerConn) : ExampleServerConn :=
  { c with transport := none, sslSocket := none }

/-- One callback firing on the handler. -/
inductive ConnStep : ExampleServerConn → ExampleServerConn → Prop
  | fallback (c : ExampleServerConn) (hello : List Nat) :
      ConnStep c (fizzHandshakeAttemptFallback c hello)
  | success (c : ExampleServerConn) : ConnStep c c.handshakeSuccess
  | fallbackSuc (c : ExampleServerConn) : ConnStep c c.fallbackSuccess
  | finish (c : ExampleServerConn) : ConnStep c c.finish

/-- States a connection handler can reach from its construction. -/
inductive ConnReachable : ExampleServerConn → Prop
  | start (t : NativeTransport) : ConnReachable (ExampleServerConn.start t)
  | step {c c' : ExampleServerConn} :
      ConnReachable c → ConnStep c c' → ConnReachable c'

/-! ## HTTP probe responder (`FizzHTTPServer`) -/

/-- Legacy-path introspection used by `fallbackSuccessLog`. -/
structure FallbackInfo where
  version : String
  cipherName : String
  sigAlgName : String
  serverCertIdentity : Option String
  clientCertIdentity : Option String
deriving DecidableEq

/-- `FizzExampleServer::fallbackSuccessLog`: the reduced-fidelity summary of
the legacy path. -/
def fallbackSummaryLines (fb : FallbackInfo) : List String :=
  [ "  TLS Version: " ++ fb.version,
    "  Cipher:  " ++ fb.cipherName,
    "  Signature Algorithm: " ++ fb.sigAlgName,
    "  Server identity: " ++ fb.serverCertIdentity.getD "(none)",
    "  Client Identity: " ++ fb.clientCertIdentity.getD "(none)" ]

/-- One response as formatted by `FizzHTTPServer::readBufferAvailable`. -/
structure HTTPResponse where
  statusLine : String
  contentType : String
  contentLength : Nat
  body : String
deriving DecidableEq

/-- State of one `FizzHTTPServer` handler together with the acceptor's
key-log state and the emitted responses. -/
structure HTTPServerState where
  conn : ConnectionState
  fallbackInfo : FallbackInfo
  secrets : Secrets
  keyLog : KeyLogState
  transportPresent : Bool
  connectedFlag : Bool
  requestBuf : List Char
  sentResponses : List HTTPResponse
  closed : Bool
deriving DecidableEq

/-- `FizzHTTPServer::respondHandshakeSuccess`: header plus the summary lines
joined by newlines; invoking `handshakeSuccessLog` repeats its key-log
writes. -/
def respondHandshakeSuccess (st : HTTPServerState) : KeyLogState × String :=
  let (k, lines) := handshakeSuccessLog st.keyLog st.conn st.secrets
  (k, "Fizz HTTP Server\n\n" ++ String.intercalate "\n" lines)

/-- `FizzHTTPServer::respondFallbackSuccess`. -/
def respondFallbackSuccess (st : HTTPServerState) : String :=
  "Fizz HTTP Server (Fallback)\n\n" ++
    String.intercalate "\n" (fallbackSummaryLines st.fallbackInfo)

/-- `FizzHTTPServer::readBufferAvailable`: chain the arriving chunk onto
`requestBuf_`; once at least 5 bytes are buffered, compare the first 5
coalesced bytes with `"GET /"` (case-sensitive `strncmp`).  On a match,
format one `HTTP/1.0 200 OK` response whose Content-Length is the body
length, send it and close; on a mismatch, log the rejected input and leave
the connection open. -/
def FizzHTTPServer.readBufferAvailable (st : HTTPServerState) (chunk : List Char) :
    HTTPServerState :=
  let buf := st.requestBuf ++ chunk
  let st := { st with requestBuf := buf }
  if 5 ≤ buf.length then
    if buf.take 5 = "GET /".data then
      let (k, responseBody) :=
        if st.transportPresent then respondHandshakeSuccess st
        else (st.keyLog, respondFallbackSuccess st)
      let response : HTTPResponse :=
        { statusLine := "HTTP/1.0 200 OK",
          contentType := "text/plain",
          contentLength := responseBody.length,
          body := responseBody }
      { st with
        keyLog := k,
        sentResponses := st.sentResponses ++ [response],
        closed := true }
    else
      st
  else
    st

/-- `fizzHandshakeSuccess` on the HTTP handler: set `connected_` and print
the summary, performing the key-log writes of `handshakeSuccessLog`. -/
def fizzHandshakeSuccessStep (st : HTTPServerState) : HTTPServerState :=
  { st with
    connectedFlag := true,
    keyLog := (handshakeSuccessLog st.keyLog st.conn st.secrets).1 }

/-- A secret-derivation event delivered to the handler's `SecretCollector`. -/
def secretAvailableStep (st : HTTPServerState) (l : SecretLabel) (bytes : List Nat) :
    HTTPServerState :=
  { st with secrets := st.secrets.store l bytes }

/-- Events delivered to one HTTP-mode connection by the event loop. -/
inductive ConnEvent
  | secretDerived (l : SecretLabel) (bytes : List Nat)
  | handshakeSuccess
  | bytesArrive (chunk : List Char)

/-- Single-threaded event dispatch.  After `close()` the transport delivers
no further read callbacks, so arriving bytes are dropped once closed. -/
def httpStep (st : HTTPServerState) (e : ConnEvent) : HTTPServerState :=
  match e with
  | .secretDerived l b => secretAvailableStep st l b
  | .handshakeSuccess => fizzHandshakeSuccessStep st
  | .bytesArrive c => if st.closed then st else FizzHTTPServer.readBufferAvailable st c

/-- Run a sequence of events on one connection. -/
def runConn (st : HTTPServerState) (es : List ConnEvent) : HTTPServerState :=
  es.foldl httpStep st

/-! ## Connection acceptor (`FizzServerAcceptor`) -/

/-- The listening `AsyncServerSocket`, reduced to whether it is currently
accepting. -/
structure ListenSocket where
  accepting : Bool
deriving DecidableEq

/-- Acceptor state: loop flag, the shared server context it was constructed
with (by identity), the listening resource, the active handler (tagged with
the context it was wired to) and the ghost history of contexts used for the
accepted connections. -/
structure AcceptorState where
  loopMode : Bool
  ctx : Nat
  socket : Option ListenSocket
  cb : Option Nat
  acceptedCtxs : List Nat
deriving DecidableEq

/-- Constructor: bind, listen, add the accept callback and start
accepting. -/
def initAcceptor (loopMode : Bool) (ctx : Nat) : AcceptorState :=
  ⟨loopMode, ctx, some ⟨true⟩, none, []⟩

/-- `FizzServerAcceptor::connectionAccepted`: wrap the descriptor, build the
`AsyncFizzServer` transport over the shared context, pause accepting, wire a
new handler and start the handshake.  The event base only delivers this
while the socket exists and is accepting. -/
def connectionAccepted (a : AcceptorState) : AcceptorState :=
  match a.socket with
  | some s =>
    if s.accepting then
      { a with
        socket := some ⟨false⟩,
        cb := some a.ctx,
        acceptedCtxs := a.acceptedCtxs ++ [a.ctx] }
    else a
  | none => a

/-- `FizzServerAcceptor::done`: release the handler and the input handler;
in loop mode re-arm accepting, otherwise release the listening socket so the
event loop runs out of work. -/
def acceptorDone (a : AcceptorState) : AcceptorState :=
  let a := { a with cb := none }
  if a.loopMode then
    match a.socket with
    | some _ => { a with socket := some ⟨true⟩ }
    | none => a
  else
    { a with socket := none }

/-- Events on the acceptor. -/
inductive AccEvent
  | accepted
  | done

/-- Acceptor event dispatch. -/
def accStep (a : AcceptorState) : AccEvent → AcceptorState
  | .accepted => connectionAccepted a
  | .done => acceptorDone a

/-- Run a sequence of acceptor events. -/
def runAcceptor (a : AcceptorState) (es : List AccEvent) : AcceptorState :=
  es.foldl accStep a

/-! ## Delegated-credential key-type dispatch -/

/-- The closed key-type set of `fizz::KeyType`. -/
inductive KeyType
  | RSA
  | P256
  | P384
  | P521
  | ED25519
deriving DecidableEq

/-- Modelled from the spec: algorithm families a private key can carry; the
constructors beyond the five of the closed KeyType set stand for algorithms
(DSA, X448, DH) outside it. -/
inductive KeyAlg
  | rsa
  | p256
  | p384
  | p521
  | ed25519
  | dsa
  | x448
  | dh
deriving DecidableEq

/-- Error of the credential path. -/
inductive CredError
  | UnsupportedAlgorithm
deriving DecidableEq

/-- A parsed private key, carrying its algorithm. -/
structure PrivateKey where
  alg : KeyAlg
  keyId : Nat
deriving DecidableEq

/-- Modelled from the spec: CertUtils::getKeyType (fizz/protocol, not under
src/) maps a private key's algorithm into the closed KeyType set and fails
with UnsupportedAlgorithm for every other algorithm. -/
def getKeyType : KeyAlg → Except CredError KeyType
  | .rsa => .ok .RSA
  | .p256 => .ok .P256
  | .p384 => .ok .P384
  | .p521 => .ok .P521
  | .ed25519 => .ok .ED25519
  | _ => .error .UnsupportedAlgorithm

/-- The parsed delegated-credential extension. -/
structure DelegatedCredential where
  ext : Nat
deriving DecidableEq

/-- `SelfDelegatedCredentialImpl<KeyType::*>`: one distinct template
instantiation per member of the closed key-type set, each carrying the same
parameters (certificate chain, credential private key, credential extension,
compressors). -/
inductive DelegatedCredImpl
  | rsaImpl (certs : List Nat) (privKey : PrivateKey) (cred : DelegatedCredential)
      (compressors : List Nat)
  | p256Impl (certs : List Nat) (privKey : PrivateKey) (cred : DelegatedCredential)
      (compressors : List Nat)
  | p384Impl (certs : List Nat) (privKey : PrivateKey) (cred : DelegatedCredential)
      (compressors : List Nat)
  | p521Impl (certs : List Nat) (privKey : PrivateKey) (cred : DelegatedCredential)
      (compressors : List Nat)
  | ed25519Impl (certs : List Nat) (privKey : PrivateKey) (cred : DelegatedCredential)
      (compressors : List Nat)
deriving DecidableEq

/-- The key-type switch of `fizzServerCommand`: each member of the closed set
selects its own `SelfDelegatedCredentialImpl` instantiation with identical
parameters. -/
def selectDelegatedCredential (kt : KeyType) (certs : List Nat) (privKey : PrivateKey)
    (cred : DelegatedCredential) (compressors : List Nat) : DelegatedCredImpl :=
  match kt with
  | .RSA => .rsaImpl certs privKey cred compressors
  | .P256 => .p256Impl certs privKey cred compressors
  | .P384 => .p384Impl certs privKey cred compressors
  | .P521 => .p521Impl certs privKey cred compressors
  | .ED25519 => .ed25519Impl certs privKey cred compressors

/-- The key type an implementation variant was instantiated at. -/
def implKeyType : DelegatedCredImpl → KeyType
  | .rsaImpl _ _ _ _ => .RSA
  | .p256Impl _ _ _ _ => .P256
  | .p384Impl _ _ _ _ => .P384
  | .p521Impl _ _ _ _ => .P521
  | .ed25519Impl _ _ _ _ => .ED25519

/-- Delegated-credential construction: determine the key type of the
credential private key, then dispatch. -/
def buildDelegatedCredentialCert (certs : List Nat) (privKey : PrivateKey)
    (cred : DelegatedCredential) (compressors : List Nat) :
    Except CredError DelegatedCredImpl :=
  match getKeyType privKey.alg with
  | .ok kt => .ok (selectDelegatedCredential kt certs privKey cred compressors)
  | .error e => .error e

/-- Credential fragment of `fizzServerCommand`: a failure inside the
credential handling is caught, logged and turns into exit code 1. -/
def fizzServerCommandCredStep (certs : List Nat) (privKey : PrivateKey)
    (cred : DelegatedCredential) (compressors : List Nat) :
    Except Nat DelegatedCredImpl :=
  match buildDelegatedCredentialCert certs privKey cred compressors with
  | .error _ => .error 1
  | .ok cert => .ok cert

/-! ## Helper lemmas -/

lemma hexVal_lowerHexChar {c : Char} {h : Nat} (hc : hexVal c = some h) :
    h < 16 ∧ hexDigitChar h = lowerHexChar c := by
  unfold hexVal at hc
  split at hc <;> simp_all <;> subst hc <;> decide

lemma hexlifyByte_eq {h l : Nat} (hl : l < 16) :
    hexlifyByte (16 * h + l) = [hexDigitChar h, hexDigitChar l] := by
  unfold hexlifyByte
  have h1 : (16 * h + l) / 16 = h := by omega
  have h2 : (16 * h + l) % 16 = l := by omega
  rw [h1, h2]

/-- Round trip: decoding a hex character list and re-encoding it yields the
hex-lowercased original.  In particular, encoding is the identity on inputs
that were already lowercase. -/
theorem unhexChars_hexChars :
    ∀ cs bs, unhexChars cs = some bs → hexChars bs = cs.map lowerHexChar
  | [], bs, h => by
      simp only [unhexChars, Option.some.injEq] at h
      subst h
      simp [hexChars]
  | [_], bs, h => by
      simp [unhexChars] at h
  | c1 :: c2 :: rest, bs, h => by
      simp only [unhexChars] at h
      rcases h1 : hexVal c1 with _ | v1 <;> rw [h1] at h
      · simp at h
      rcases h2 : hexVal c2 with _ | v2 <;> rw [h2] at h
      · simp at h
      rcases h3 : unhexChars rest with _ | tail <;> rw [h3] at h
      · simp at h
      simp only [Option.some.injEq] at h
      subst h
      obtain ⟨-, he1⟩ := hexVal_lowerHexChar h1
      obtain ⟨hv2, he2⟩ := hexVal_lowerHexChar h2
      have ih := unhexChars_hexChars rest tail h3
      simp [hexChars, List.map_cons] at ih ⊢
      rw [hexlifyByte_eq hv2, he1, he2]
      simpa [hexChars] using ih

end FizzTool

namespace FizzTool

/-- A 64-character lowercase hex line (32 bytes of 0xaa). -/
def c4LowerLine : String := String.mk (List.replicate 64 'a')

/-- The same 32 bytes written as a 64-character uppercase hex line. -/
def c4UpperLine : String := String.mk (List.replicate 64 'A')

/-- x25519 key file whose second (public-key) line is uppercase hex. -/
def c4File : String := c4LowerLine ++ "\n" ++ c4UpperLine

/-- x25519 key file with both lines lowercase. -/
def c4AllLowerFile : String := c4LowerLine ++ "\n" ++ c4LowerLine

/-- The 32 bytes both lines decode to. -/
def c4Bytes : List Nat := List.replicate 32 170

/-- Accepting is paused whenever a handler is active. -/
def acceptPaused (a : AcceptorState) : Prop :=
  a.cb.isSome = true → ∀ s, a.socket = some s → s.accepting = false

/-- Body of the HTTP probe's success response on the native path. -/
def httpSuccessBody (st : HTTPServerState) : String :=
  "Fizz HTTP Server\n\n" ++
    String.intercalate "\n" (handshakeSummaryLines st.conn st.secrets)

/-- A concrete post-negotiation connection state for concrete runs. -/
def demoConn : ConnectionState :=
  { version := "TLSVersion.tls_1_3"
    cipher := "TLS_AES_128_GCM_SHA256"
    group := some "x25519"
    sigScheme := some "ecdsa_secp256r1_sha256"
    pskType := "PskType.NotAttempted"
    pskMode := none
    keyExchangeType := "KeyExchangeType.OneRtt"
    earlyDataType := "EarlyDataType.NotAttempted"
    serverCertIdentity := some "fizz-self-signed"
    clientCertIdentity := none
    serverCertCompAlgo := none
    alpn := none
    clientRandom := List.replicate 32 7
    echAccepted := false
    context := ⟨none⟩ }

/-- A fresh HTTP-mode handler over `demoConn` with key logging enabled. -/
def demoStart : HTTPServerState :=
  { conn := demoConn
    fallbackInfo := ⟨"TLSv1.2", "ECDHE-RSA-AES128-GCM-SHA256", "RSA-SHA256", none, none⟩
    secrets := {}
    keyLog := ⟨true, []⟩
    transportPresent := true
    connectedFlag := false
    requestBuf := []
    sentResponses := []
    closed := false }

/-- The stored secret a label refers to. -/
def secretOfLabel (sec : Secrets) : SecretLabel → Option (List Nat)
  | .clientEarlyTraffic => sec.clientEarlyTrafficSecret
  | .clientHandshakeTraffic => sec.clientHandshakeTrafficSecret
  | .serverHandshakeTraffic => sec.serverHandshakeTrafficSecret
  | .exporterMaster => sec.exporterMasterSecret
  | .clientAppTraffic => sec.clientAppTrafficSecret
  | .serverAppTraffic => sec.serverAppTrafficSecret
  | .externalPsk => sec.externalPskBinder
  | .resumptionPsk => sec.resumptionPskBinder
  | .earlyExporter => sec.earlyExporterSecret
  | .resumptionMaster => sec.resumptionMasterSecret

/-- The key-log line one populated member contributes. -/
def optLine (r : List Nat) (label : String) : Option (List Nat) → List KeyLogLine
  | some s => [⟨label, hexlify r, hexlify s⟩]
  | none => []

/-- The batch of key-log lines one run of the summary routine appends when a
writer is installed: one line per populated secret among the six forwarded
labels, in the fixed source order. -/
def expectedKeyLogBatch (st : ConnectionState) (sec : Secrets) : List KeyLogLine :=
  optLine st.clientRandom "CLIENT_EARLY_TRAFFIC_SECRET" sec.clientEarlyTrafficSecret ++
  optLine st.clientRandom "CLIENT_HANDSHAKE_TRAFFIC_SECRET" sec.clientHandshakeTrafficSecret ++
  optLine st.clientRandom "SERVER_HANDSHAKE_TRAFFIC_SECRET" sec.serverHandshakeTrafficSecret ++
  optLine st.clientRandom "EXPORTER_SECRET" sec.exporterMasterSecret ++
  optLine st.clientRandom "CLIENT_TRAFFIC_SECRET_0" sec.clientAppTrafficSecret ++
  optLine st.clientRandom "SERVER_TRAFFIC_SECRET_0" sec.serverAppTrafficSecret

/-- Secrets after capturing one client handshake traffic secret. -/
def demoSecrets : Secrets := { clientHandshakeTrafficSecret := some [1, 2, 3] }

/-- One HTTP-mode connection trace: a secret event, handshake success, then a
matching GET. -/
def demoTrace : List ConnEvent :=
  [ConnEvent.secretDerived .clientHandshakeTraffic [1, 2, 3],
   ConnEvent.handshakeSuccess,
   ConnEvent.bytesArrive "GET / HTTP/1.0\r\n".data]

/-- The key-log line the captured secret produces. -/
def demoLine : KeyLogLine :=
  ⟨"CLIENT_HANDSHAKE_TRAFFIC_SECRET", hexlify (List.replicate 32 7), hexlify [1, 2, 3]⟩

/-! ## Claim theorems -/

lemma connStep_mutex {c c' : ExampleServerConn}
    (hm : ¬(c.transport.isSome ∧ c.sslSocket.isSome)) (hs : ConnStep c c') :
    ¬(c'.transport.isSome ∧ c'.sslSocket.isSome) := by
  cases hs with
  | fallback hello =>
    unfold fizzHandshakeAttemptFallback
    cases h : c.transport with
    | some t => simp [h]
    | none => simp [h]
  | success => simpa [ExampleServerConn.handshakeSuccess] using hm
  | fallbackSuc => simpa [ExampleServerConn.fallbackSuccess] using hm
  | finish => simp [ExampleServerConn.finish]

/-- C1: at every reachable state of a connection handler, at most one of the
native transport slot (`transport_`) and the legacy slot (`sslSocket_`) is
populated; the fallback transition empties the native slot and fills the
legacy slot with the same socket descriptor and the buffered client hello as
pre-received input, so that afterwards exactly the legacy slot is
populated. -/
theorem claim_C1_transport_slots :
    (∀ c : ExampleServerConn, ConnReachable c →
      ¬(c.transport.isSome ∧ c.sslSocket.isSome)) ∧
    (∀ (c : ExampleServerConn) (t : NativeTransport) (hello : List Nat),
      c.transport = some t →
      (fizzHandshakeAttemptFallback c hello).transport = none ∧
      (fizzHandshakeAttemptFallback c hello).sslSocket = some ⟨t.fd, hello, true⟩) := by
  constructor
  · intro c hc
    induction hc with
    | start t => simp [ExampleServerConn.start]
    | step h s ih => exact connStep_mutex ih s
  · intro c t hello ht
    unfold fizzHandshakeAttemptFallback
    rw [ht]
    exact ⟨rfl, rfl⟩

/-- Witness for C1 at a concrete connection. -/
theorem claim_C1_transport_slots_witness :
    ¬((ExampleServerConn.start ⟨7⟩).transport.isSome ∧
        (ExampleServerConn.start ⟨7⟩).sslSocket.isSome) ∧
    (fizzHandshakeAttemptFallback (ExampleServerConn.start ⟨7⟩) [1, 2]).transport = none ∧
    (fizzHandshakeAttemptFallback (ExampleServerConn.start ⟨7⟩) [1, 2]).sslSocket =
      some ⟨7, [1, 2], true⟩ :=
  ⟨claim_C1_transport_slots.1 _ (ConnReachable.start ⟨7⟩),
   claim_C1_transport_slots.2 (ExampleServerConn.start ⟨7⟩) ⟨7⟩ [1, 2] rfl⟩

/-- C10: the final line of the native handshake summary is the ECH-success
sentence exactly when the server context has an ECH decrypter configured
(and is empty otherwise), independently of whether the connection actually
performed an encrypted client hello. -/
theorem claim_C10_ech_indicator :
    ∀ (k : KeyLogState) (st : ConnectionState) (sec : Secrets) (b : Bool),
      ((handshakeSuccessLog k st sec).2.getLast? =
          some "Encrypted client hello (ECH) is successful." ↔
        st.context.echDecrypter.isSome = true) ∧
      (handshakeSuccessLog k { st with echAccepted := b } sec).2 =
        (handshakeSuccessLog k st sec).2 := by
  intro k st sec b
  constructor
  · cases h : st.context.echDecrypter with
    | none => simp [handshakeSuccessLog, handshakeSummaryLines, h]
    | some d => simp [handshakeSuccessLog, handshakeSummaryLines, h]
  · simp [handshakeSuccessLog, handshakeSummaryLines]

/-- C6: the default decrypter holds exactly one decryption config, pairing
the first default ECH config descriptor with an x25519 key exchange whose
private and public keys are the fixed 32-byte constants; being a pure
value, it is identical on every invocation. -/
theorem claim_C6_default_decrypter :
    ∃ priv pub : List Nat,
      setupDefaultDecrypter =
        some ⟨[⟨getDefaultECHConfigs.headI, KeyExchange.x25519KX priv pub⟩]⟩ ∧
      priv.length = 32 ∧ pub.length = 32 ∧
      hexlify priv = defaultEchPrivHex ∧ hexlify pub = defaultEchPubHex := by
  refine ⟨(unhexlify defaultEchPrivHex).getD [], (unhexlify defaultEchPubHex).getD [],
    ?_, ?_, ?_, ?_, ?_⟩ <;> decide

end FizzTool

namespace FizzTool

/-- C4 fails as stated: on an x25519 key file of two 64-hex lines whose
second line uses uppercase digits, the key exchange is built, but hex
encoding its public-key bytes yields lowercase digits, not the file's
second line exactly. -/
theorem claim_C4_counterexample :
    createKeyExchange KEMId.x25519 (some c4File) =
      .ok (some (KeyExchange.x25519KX c4Bytes c4Bytes)) ∧
    hexlify c4Bytes ≠ c4UpperLine := by
  decide

/-- C4 (amended): key-exchange construction dispatches on the KEM id — each
secp curve loads the PEM key file into its elliptic-curve key exchange, while
x25519 reads two hex lines positionally (private key first, public key
second) into a raw key exchange; for every x25519 key file of two 64-hex
lines, the resulting public-key bytes hex-encode to the hex-lowercased
second line (hence to the second line exactly whenever it is lowercase). -/
theorem claim_C4_key_exchange_dispatch :
    (∀ f : String,
      createKeyExchange .secp256r1 (some f) =
        .ok (some (.opensslEC .P256 ⟨f⟩)) ∧
      createKeyExchange .secp384r1 (some f) =
        .ok (some (.opensslEC .P384 ⟨f⟩)) ∧
      createKeyExchange .secp521r1 (some f) =
        .ok (some (.opensslEC .P521 ⟨f⟩))) ∧
    (∀ (f l1 l2 : String) (b1 b2 : List Nat),
      fileTokens (some f) = [l1, l2] →
      unhexlify l1 = some b1 → b1.length = 32 →
      unhexlify l2 = some b2 → b2.length = 32 →
      createKeyExchange .x25519 (some f) = .ok (some (.x25519KX b1 b2)) ∧
      hexlify b2 = lowerHex l2) := by
  constructor
  · intro f
    exact ⟨rfl, rfl, rfl⟩
  · intro f l1 l2 b1 b2 ht h1 hl1 h2 hl2
    constructor
    · simp only [createKeyExchange, ht, List.getD_cons_zero, List.getD_cons_succ, h1, h2,
        X25519KeyExchange.setKeyPair, hl1, hl2, and_self, if_true]
    · have hrt := unhexChars_hexChars l2.data b2 h2
      simp [hexlify, lowerHex, hrt]

/-- Witness for the amended C4 at a concrete all-lowercase key file. -/
theorem claim_C4_key_exchange_dispatch_witness :
    fileTokens (some c4AllLowerFile) = [c4LowerLine, c4LowerLine] ∧
    unhexlify c4LowerLine = some c4Bytes ∧
    c4Bytes.length = 32 ∧
    createKeyExchange .x25519 (some c4AllLowerFile) =
      .ok (some (.x25519KX c4Bytes c4Bytes)) ∧
    hexlify c4Bytes = lowerHex c4LowerLine := by
  refine ⟨by decide, by decide, by decide, ?_⟩
  exact claim_C4_key_exchange_dispatch.2 c4AllLowerFile c4LowerLine c4LowerLine c4Bytes c4Bytes
    (by decide) (by decide) (by decide) (by decide) (by decide)

end FizzTool

namespace FizzTool

/-- C5: every ECH setup failure mode aborts the decrypter build rather than
leaving a partial configuration — an unreadable or unparseable config JSON
yields ConfigError, an unsupported KEM id yields UnsupportedAlgorithm, an
unreadable key file yields IOError — and any build failure makes startup
abort with exit code 1. -/
theorem claim_C5_ech_failure_modes :
    (∀ keyFile, setupDecrypterFromInputs none keyFile = .error .ConfigError) ∧
    (∀ s keyFile,
      setupDecrypterFromInputs (some ⟨s, none⟩) keyFile = .error .ConfigError) ∧
    (∀ s cfgs keyFile, getKEMId s = .otherKem →
      setupDecrypterFromInputs (some ⟨s, some cfgs⟩) keyFile =
        .error .UnsupportedAlgorithm) ∧
    (∀ s cfgs, getKEMId s ≠ .otherKem →
      setupDecrypterFromInputs (some ⟨s, some cfgs⟩) none = .error .IOError) ∧
    (∀ json keyFile ctx e, setupDecrypterFromInputs json keyFile = .error e →
      fizzServerCommandEchSetup json keyFile ctx = .error 1) := by
  refine ⟨fun _ => rfl, fun _ _ => rfl, ?_, ?_, ?_⟩
  · intro s cfgs keyFile h
    simp [setupDecrypterFromInputs, h, createKeyExchange]
  · intro s cfgs h
    cases hk : getKEMId s with
    | otherKem => exact absurd hk h
    | secp256r1 =>
      simp [setupDecrypterFromInputs, hk, createKeyExchange, getPrivateKey,
        OpenSSLECKeyExchange.setPrivateKey]
    | secp384r1 =>
      simp [setupDecrypterFromInputs, hk, createKeyExchange, getPrivateKey,
        OpenSSLECKeyExchange.setPrivateKey]
    | secp521r1 =>
      simp [setupDecrypterFromInputs, hk, createKeyExchange, getPrivateKey,
        OpenSSLECKeyExchange.setPrivateKey]
    | x25519 =>
      simp [setupDecrypterFromInputs, hk, createKeyExchange, fileTokens,
        unhexlify, unhexChars, X25519KeyExchange.setKeyPair]
  · intro json keyFile ctx e h
    simp [fizzServerCommandEchSetup, h]

/-- Witness for C5 at concrete inputs for each failure mode. -/
theorem claim_C5_ech_failure_modes_witness :
    setupDecrypterFromInputs none none = .error .ConfigError ∧
    setupDecrypterFromInputs (some ⟨"x25519", none⟩) none = .error .ConfigError ∧
    setupDecrypterFromInputs (some ⟨"bogus", some [0]⟩) none =
      .error .UnsupportedAlgorithm ∧
    setupDecrypterFromInputs (some ⟨"x25519", some [0]⟩) none = .error .IOError ∧
    fizzServerCommandEchSetup none none ⟨none⟩ = .error 1 :=
  ⟨claim_C5_ech_failure_modes.1 none,
   claim_C5_ech_failure_modes.2.1 "x25519" none,
   claim_C5_ech_failure_modes.2.2.1 "bogus" [0] none (by decide),
   claim_C5_ech_failure_modes.2.2.2.1 "x25519" [0] (by decide),
   claim_C5_ech_failure_modes.2.2.2.2 none none ⟨none⟩ .ConfigError
     (claim_C5_ech_failure_modes.1 none)⟩

/-- C9: the delegated-credential switch covers exactly the closed key-type
set, producing for each member its own implementation variant with identical
parameters (so different key types never produce the same implementation),
and a private key whose algorithm is outside the set fails with
UnsupportedAlgorithm and exit code 1 — no generic fallback signer exists. -/
theorem claim_C9_credential_dispatch :
    (∀ (kt : KeyType) (certs : List Nat) (pk : PrivateKey)
        (cred : DelegatedCredential) (comps : List Nat),
      implKeyType (selectDelegatedCredential kt certs pk cred comps) = kt) ∧
    (∀ (kt1 kt2 : KeyType) (certs : List Nat) (pk : PrivateKey)
        (cred : DelegatedCredential) (comps : List Nat),
      selectDelegatedCredential kt1 certs pk cred comps =
        selectDelegatedCredential kt2 certs pk cred comps → kt1 = kt2) ∧
    (∀ (pk : PrivateKey) (certs : List Nat) (cred : DelegatedCredential)
        (comps : List Nat),
      getKeyType pk.alg = .error .UnsupportedAlgorithm →
      buildDelegatedCredentialCert certs pk cred comps =
        .error .UnsupportedAlgorithm ∧
      fizzServerCommandCredStep certs pk cred comps = .error 1) := by
  have tag : ∀ (kt : KeyType) (certs : List Nat) (pk : PrivateKey)
      (cred : DelegatedCredential) (comps : List Nat),
      implKeyType (selectDelegatedCredential kt certs pk cred comps) = kt := by
    intro kt _ _ _ _
    cases kt <;> rfl
  refine ⟨tag, ?_, ?_⟩
  · intro kt1 kt2 certs pk cred comps h
    rw [← tag kt1 certs pk cred comps, h, tag]
  · intro pk certs cred comps h
    exact ⟨by simp [buildDelegatedCredentialCert, h],
      by simp [fizzServerCommandCredStep, buildDelegatedCredentialCert, h]⟩

/-- Witness for C9 at concrete inputs: an RSA-typed credential and a
DSA-keyed one. -/
theorem claim_C9_credential_dispatch_witness :
    implKeyType (selectDelegatedCredential .RSA [1] ⟨.rsa, 0⟩ ⟨2⟩ []) = .RSA ∧
    KeyType.P256 = KeyType.P256 ∧
    buildDelegatedCredentialCert [1] ⟨.dsa, 0⟩ ⟨2⟩ [] =
      .error .UnsupportedAlgorithm ∧
    fizzServerCommandCredStep [1] ⟨.dsa, 0⟩ ⟨2⟩ [] = .error 1 :=
  ⟨claim_C9_credential_dispatch.1 .RSA [1] ⟨.rsa, 0⟩ ⟨2⟩ [],
   claim_C9_credential_dispatch.2.1 .P256 .P256 [1] ⟨.p256, 0⟩ ⟨2⟩ [] rfl,
   claim_C9_credential_dispatch.2.2 ⟨.dsa, 0⟩ [1] ⟨2⟩ [] (by decide)⟩

end FizzTool

namespace FizzTool

lemma runAcceptor_nil (a : AcceptorState) : runAcceptor a [] = a := rfl

lemma runAcceptor_cons (a : AcceptorState) (e : AccEvent) (es : List AccEvent) :
    runAcceptor a (e :: es) = runAcceptor (accStep a e) es := rfl

lemma accStep_fields (a : AcceptorState) (e : AccEvent) :
    (accStep a e).ctx = a.ctx ∧
    ((accStep a e).acceptedCtxs = a.acceptedCtxs ∨
      (accStep a e).acceptedCtxs = a.acceptedCtxs ++ [a.ctx]) ∧
    (a.socket = none →
      (accStep a e).socket = none ∧ (accStep a e).acceptedCtxs = a.acceptedCtxs) := by
  cases e with
  | accepted =>
    cases h : a.socket with
    | some s =>
      by_cases hs : s.accepting <;> simp [accStep, connectionAccepted, h, hs]
    | none => simp [accStep, connectionAccepted, h]
  | done =>
    by_cases hl : a.loopMode <;> cases h : a.socket <;>
      simp [accStep, acceptorDone, h, hl]

lemma runAcceptor_socket_none {a : AcceptorState} (es : List AccEvent)
    (h : a.socket = none) :
    (runAcceptor a es).socket = none ∧
    (runAcceptor a es).acceptedCtxs = a.acceptedCtxs := by
  induction es generalizing a with
  | nil => exact ⟨h, rfl⟩
  | cons e es ih =>
    obtain ⟨-, -, hnone⟩ := accStep_fields a e
    obtain ⟨h1, h2⟩ := hnone h
    rw [runAcceptor_cons]
    obtain ⟨r1, r2⟩ := ih h1
    exact ⟨r1, by rw [r2, h2]⟩

lemma runAcceptor_ctx_mem {a : AcceptorState} (es : List AccEvent) :
    (runAcceptor a es).ctx = a.ctx ∧
    ∀ x ∈ (runAcceptor a es).acceptedCtxs, x ∈ a.acceptedCtxs ∨ x = a.ctx := by
  induction es generalizing a with
  | nil => exact ⟨rfl, fun x hx => .inl hx⟩
  | cons e es ih =>
    obtain ⟨hc, hacc, -⟩ := accStep_fields a e
    obtain ⟨ihc, ihm⟩ := ih (a := accStep a e)
    rw [runAcceptor_cons]
    refine ⟨by rw [ihc, hc], ?_⟩
    intro x hx
    rcases ihm x hx with hmem | hx2
    · rcases hacc with h1 | h1
      · rw [h1] at hmem
        exact .inl hmem
      · rw [h1] at hmem
        rcases List.mem_append.mp hmem with h2 | h2
        · exact .inl h2
        · simp only [List.mem_singleton] at h2
          exact .inr h2
    · rw [hx2, hc]
      exact .inr rfl

lemma accStep_paused {a : AcceptorState} (hp : acceptPaused a) (e : AccEvent) :
    acceptPaused (accStep a e) := by
  cases e with
  | accepted =>
    cases h : a.socket with
    | some s =>
      by_cases hs : s.accepting
      · intro _ s' hs'
        simp [accStep, connectionAccepted, h, hs] at hs'
        rw [← hs']
      · simpa [accStep, connectionAccepted, h, hs] using hp
    | none => simpa [accStep, connectionAccepted, h] using hp
  | done =>
    intro hcb
    by_cases hl : a.loopMode <;> cases h : a.socket <;>
      simp [accStep, acceptorDone, h, hl] at hcb ⊢

lemma runAcceptor_paused {a : AcceptorState} (es : List AccEvent)
    (hp : acceptPaused a) : acceptPaused (runAcceptor a es) := by
  induction es generalizing a with
  | nil => exact hp
  | cons e es ih => exact ih (accStep_paused hp e)

/-- C8: the acceptor pauses accepting when it wires a handler to an accepted
connection; `done()` releases the handler and, in loop mode, re-arms
accepting on the unchanged shared context, while in single-shot mode it
releases the listening socket, after which no sequence of events ever
accepts another connection; every accepted connection uses the
construction-time shared context; and accepting is always paused while a
handler is active. -/
theorem claim_C8_acceptor_lifecycle :
    (∀ a : AcceptorState, a.socket = some ⟨true⟩ →
      (connectionAccepted a).socket = some ⟨false⟩ ∧
      (connectionAccepted a).cb = some a.ctx ∧
      (connectionAccepted a).acceptedCtxs = a.acceptedCtxs ++ [a.ctx]) ∧
    (∀ a : AcceptorState, a.loopMode = true → a.socket.isSome = true →
      (acceptorDone a).cb = none ∧ (acceptorDone a).socket = some ⟨true⟩ ∧
      (acceptorDone a).ctx = a.ctx) ∧
    (∀ a : AcceptorState, a.loopMode = false →
      (acceptorDone a).cb = none ∧ (acceptorDone a).socket = none ∧
      (∀ es, (runAcceptor (acceptorDone a) es).socket = none ∧
        (runAcceptor (acceptorDone a) es).acceptedCtxs =
          (acceptorDone a).acceptedCtxs)) ∧
    (∀ (loopMode : Bool) (ctx : Nat) (es : List AccEvent),
      ∀ x ∈ (runAcceptor (initAcceptor loopMode ctx) es).acceptedCtxs, x = ctx) ∧
    (∀ (loopMode : Bool) (ctx : Nat) (es : List AccEvent),
      acceptPaused (runAcceptor (initAcceptor loopMode ctx) es)) := by
  refine ⟨?_, ?_, ?_, ?_, ?_⟩
  · intro a h
    simp [connectionAccepted, h]
  · intro a hl hs
    cases h : a.socket with
    | some s => simp [acceptorDone, hl, h]
    | none => rw [h] at hs; simp at hs
  · intro a hl
    have hs : (acceptorDone a).socket = none := by
      by_cases hL : a.loopMode
      · rw [hL] at hl; simp at hl
      · cases h : a.socket <;> simp [acceptorDone, h, hL]
    refine ⟨?_, hs, fun es => runAcceptor_socket_none es hs⟩
    by_cases hL : a.loopMode
    · rw [hL] at hl; simp at hl
    · cases h : a.socket <;> simp [acceptorDone, h, hL]
  · intro loopMode ctx es x hx
    obtain ⟨hc, hm⟩ := runAcceptor_ctx_mem (a := initAcceptor loopMode ctx) es
    rcases hm x hx with hmem | hx2
    · simp [initAcceptor] at hmem
    · exact hx2
  · intro loopMode ctx es
    refine runAcceptor_paused es ?_
    intro hcb
    simp [initAcceptor] at hcb

end FizzTool

namespace FizzTool

/-- Witness for C8 at concrete acceptor states in loop and single-shot
mode. -/
theorem claim_C8_acceptor_lifecycle_witness :
    ((connectionAccepted (initAcceptor true 42)).socket = some ⟨false⟩ ∧
     (connectionAccepted (initAcceptor true 42)).cb = some 42 ∧
     (connectionAccepted (initAcceptor true 42)).acceptedCtxs = [] ++ [42]) ∧
    ((acceptorDone (connectionAccepted (initAcceptor true 42))).cb = none ∧
     (acceptorDone (connectionAccepted (initAcceptor true 42))).socket = some ⟨true⟩ ∧
     (acceptorDone (connectionAccepted (initAcceptor true 42))).ctx = 42) ∧
    ((acceptorDone (connectionAccepted (initAcceptor false 42))).socket = none ∧
     (runAcceptor (acceptorDone (connectionAccepted (initAcceptor false 42)))
        [AccEvent.accepted]).socket = none) ∧
    (42 : Nat) = 42 ∧
    (ListenSocket.mk false).accepting = false := by
  refine ⟨?_, ?_, ?_, ?_, ?_⟩
  · exact claim_C8_acceptor_lifecycle.1 (initAcceptor true 42) rfl
  · exact claim_C8_acceptor_lifecycle.2.1 (connectionAccepted (initAcceptor true 42))
      rfl (by decide)
  · have h := claim_C8_acceptor_lifecycle.2.2.1
      (connectionAccepted (initAcceptor false 42)) rfl
    exact ⟨h.2.1, (h.2.2 [AccEvent.accepted]).1⟩
  · exact claim_C8_acceptor_lifecycle.2.2.2.1 true 42 [AccEvent.accepted] 42 (by decide)
  · exact claim_C8_acceptor_lifecycle.2.2.2.2 true 42 [AccEvent.accepted]
      (by decide) ⟨false⟩ (by decide)

end FizzTool

namespace FizzTool

lemma runConn_cons (st : HTTPServerState) (e : ConnEvent) (es : List ConnEvent) :
    runConn st (e :: es) = runConn (httpStep st e) es := rfl

lemma http_read_short {st : HTTPServerState} {chunk : List Char}
    (h : (st.requestBuf ++ chunk).length < 5) :
    FizzHTTPServer.readBufferAvailable st chunk =
      { st with requestBuf := st.requestBuf ++ chunk } := by
  have hc : ¬5 ≤ st.requestBuf.length + chunk.length := by
    rw [← List.length_append]; omega
  simp [FizzHTTPServer.readBufferAvailable, hc]

lemma http_read_mismatch {st : HTTPServerState} {chunk : List Char}
    (_h5 : 5 ≤ (st.requestBuf ++ chunk).length)
    (hne : (st.requestBuf ++ chunk).take 5 ≠ "GET /".data) :
    FizzHTTPServer.readBufferAvailable st chunk =
      { st with requestBuf := st.requestBuf ++ chunk } := by
  simp [FizzHTTPServer.readBufferAvailable, hne]

lemma http_read_match {st : HTTPServerState} {chunk : List Char}
    (h5 : 5 ≤ (st.requestBuf ++ chunk).length)
    (heq : (st.requestBuf ++ chunk).take 5 = "GET /".data)
    (ht : st.transportPresent = true) :
    FizzHTTPServer.readBufferAvailable st chunk =
      { st with
        requestBuf := st.requestBuf ++ chunk,
        keyLog := handshakeKeyLogWrites st.keyLog st.conn st.secrets,
        sentResponses := st.sentResponses ++
          [⟨"HTTP/1.0 200 OK", "text/plain",
            (httpSuccessBody st).length, httpSuccessBody st⟩],
        closed := true } := by
  have h5' : 5 ≤ st.requestBuf.length + chunk.length := by
    rw [← List.length_append]; exact h5
  simp [FizzHTTPServer.readBufferAvailable, h5', heq, ht,
    respondHandshakeSuccess, handshakeSuccessLog, httpSuccessBody]

lemma httpStep_closed {st : HTTPServerState} (h : st.closed = true) (e : ConnEvent) :
    (httpStep st e).sentResponses = st.sentResponses ∧ (httpStep st e).closed = true := by
  cases e with
  | secretDerived l b => exact ⟨rfl, h⟩
  | handshakeSuccess => exact ⟨rfl, h⟩
  | bytesArrive c => simp [httpStep, h]

lemma runConn_closed {st : HTTPServerState} (es : List ConnEvent)
    (h : st.closed = true) :
    (runConn st es).sentResponses = st.sentResponses ∧
    (runConn st es).closed = true := by
  induction es generalizing st with
  | nil => exact ⟨rfl, h⟩
  | cons e es ih =>
    obtain ⟨h1, h2⟩ := httpStep_closed h e
    obtain ⟨r1, r2⟩ := ih h2
    rw [runConn_cons]
    exact ⟨by rw [r1, h1], r2⟩

/-- C7: the HTTP probe accumulates chunks without checking until at least 5
bytes are buffered; it then compares the first 5 bytes case-sensitively to
"GET /" — on a mismatch nothing is sent and the connection stays open, on a
match exactly one HTTP/1.0 200 OK response is appended whose Content-Length
equals its body length and whose body is the structured session summary, and
the connection closes, after which no further reads are processed; in
particular "GE" followed by "T / HTTP/1.1" CRLF produces no response after
the first arrival and exactly one after the second. -/
theorem claim_C7_http_probe :
    (∀ (st : HTTPServerState) (chunk : List Char),
      (st.requestBuf ++ chunk).length < 5 →
      FizzHTTPServer.readBufferAvailable st chunk =
        { st with requestBuf := st.requestBuf ++ chunk }) ∧
    (∀ (st : HTTPServerState) (chunk : List Char),
      5 ≤ (st.requestBuf ++ chunk).length →
      (st.requestBuf ++ chunk).take 5 ≠ "GET /".data →
      FizzHTTPServer.readBufferAvailable st chunk =
        { st with requestBuf := st.requestBuf ++ chunk }) ∧
    (∀ (st : HTTPServerState) (chunk : List Char),
      5 ≤ (st.requestBuf ++ chunk).length →
      (st.requestBuf ++ chunk).take 5 = "GET /".data →
      st.transportPresent = true →
      FizzHTTPServer.readBufferAvailable st chunk =
        { st with
          requestBuf := st.requestBuf ++ chunk,
          keyLog := handshakeKeyLogWrites st.keyLog st.conn st.secrets,
          sentResponses := st.sentResponses ++
            [⟨"HTTP/1.0 200 OK", "text/plain",
              (httpSuccessBody st).length, httpSuccessBody st⟩],
          closed := true }) ∧
    (∀ (st : HTTPServerState) (es : List ConnEvent), st.closed = true →
      (runConn st es).sentResponses = st.sentResponses) ∧
    (∀ st0 : HTTPServerState,
      st0.requestBuf = [] → st0.sentResponses = [] → st0.closed = false →
      st0.transportPresent = true →
      (runConn st0 [ConnEvent.bytesArrive "GE".data]).sentResponses = [] ∧
      (runConn st0 [ConnEvent.bytesArrive "GE".data]).closed = false ∧
      (runConn st0 [ConnEvent.bytesArrive "GE".data,
        ConnEvent.bytesArrive "T / HTTP/1.1\r\n".data]).sentResponses.length = 1) := by
  refine ⟨fun st chunk h => http_read_short h,
    fun st chunk h5 hne => http_read_mismatch h5 hne,
    fun st chunk h5 heq ht => http_read_match h5 heq ht,
    fun st es h => (runConn_closed es h).1, ?_⟩
  intro st0 hb hr hc ht
  have e1 := @http_read_short st0 "GE".data (by rw [hb]; decide)
  have hrun1 : runConn st0 [ConnEvent.bytesArrive "GE".data] =
      { st0 with requestBuf := st0.requestBuf ++ "GE".data } := by
    simp [runConn, httpStep, hc, e1]
  have h5 : 5 ≤ ((st0.requestBuf ++ "GE".data) ++ "T / HTTP/1.1\r\n".data).length := by
    rw [hb]; decide
  have heq : ((st0.requestBuf ++ "GE".data) ++ "T / HTTP/1.1\r\n".data).take 5 =
      "GET /".data := by
    rw [hb]; decide
  have e2 := @http_read_match { st0 with requestBuf := st0.requestBuf ++ "GE".data }
    ("T / HTTP/1.1\r\n".data) h5 heq ht
  have hrun2 : runConn st0 [ConnEvent.bytesArrive "GE".data,
      ConnEvent.bytesArrive "T / HTTP/1.1\r\n".data] =
      FizzHTTPServer.readBufferAvailable
        { st0 with requestBuf := st0.requestBuf ++ "GE".data }
        "T / HTTP/1.1\r\n".data := by
    simp [runConn, httpStep, hc, e1]
  refine ⟨by rw [hrun1, hr], by rw [hrun1]; exact hc, ?_⟩
  rw [hrun2, e2]
  simp [hr]

end FizzTool

namespace FizzTool

/-- Witness for C7 on `demoStart`: a short arrival, a mismatching request, a
matching request, a closed connection, and the two-arrival scenario. -/
theorem claim_C7_http_probe_witness :
    FizzHTTPServer.readBufferAvailable demoStart "GE".data =
      { demoStart with requestBuf := demoStart.requestBuf ++ "GE".data } ∧
    FizzHTTPServer.readBufferAvailable demoStart "HELLO THERE".data =
      { demoStart with requestBuf := demoStart.requestBuf ++ "HELLO THERE".data } ∧
    FizzHTTPServer.readBufferAvailable demoStart "GET / HTTP/1.0\r\n".data =
      { demoStart with
        requestBuf := demoStart.requestBuf ++ "GET / HTTP/1.0\r\n".data,
        keyLog := handshakeKeyLogWrites demoStart.keyLog demoStart.conn demoStart.secrets,
        sentResponses := demoStart.sentResponses ++
          [⟨"HTTP/1.0 200 OK", "text/plain",
            (httpSuccessBody demoStart).length, httpSuccessBody demoStart⟩],
        closed := true } ∧
    (runConn { demoStart with closed := true }
      [ConnEvent.bytesArrive "GET / HTTP/1.0\r\n".data]).sentResponses =
      ({ demoStart with closed := true } : HTTPServerState).sentResponses ∧
    (runConn demoStart [ConnEvent.bytesArrive "GE".data]).sentResponses = [] ∧
    (runConn demoStart [ConnEvent.bytesArrive "GE".data]).closed = false ∧
    (runConn demoStart [ConnEvent.bytesArrive "GE".data,
      ConnEvent.bytesArrive "T / HTTP/1.1\r\n".data]).sentResponses.length = 1 := by
  have hsc := claim_C7_http_probe.2.2.2.2 demoStart rfl rfl rfl rfl
  refine ⟨?_, ?_, ?_, ?_, hsc.1, hsc.2.1, hsc.2.2⟩
  · exact claim_C7_http_probe.1 demoStart "GE".data (by decide)
  · exact claim_C7_http_probe.2.1 demoStart "HELLO THERE".data (by decide) (by decide)
  · exact claim_C7_http_probe.2.2.1 demoStart "GET / HTTP/1.0\r\n".data
      (by decide) (by decide) rfl
  · exact claim_C7_http_probe.2.2.2.1 { demoStart with closed := true }
      [ConnEvent.bytesArrive "GET / HTTP/1.0\r\n".data] rfl

end FizzTool

namespace FizzTool

lemma countLabel_snoc (l : List KeyLogLine) (x : KeyLogLine) (lab : String) :
    countLabel (l ++ [x]) lab =
      countLabel l lab + if x.label = lab then 1 else 0 := by
  simp only [countLabel, List.filter_append, List.length_append]
  split <;> simp_all

lemma optWrite_count_le (k : KeyLogState) (r : List Nat) (lab' : String)
    (o : Option (List Nat)) (lab : String) :
    countLabel (optWrite k r lab' o).lines lab ≤
      countLabel k.lines lab + (if lab' = lab then 1 else 0) := by
  cases o with
  | none => simp [optWrite]
  | some s =>
    by_cases hl : k.hasLogger
    · simp only [optWrite, writeKeyLog, hl, if_true]
      rw [countLabel_snoc]
    · simp [optWrite, writeKeyLog, hl]

lemma optWrite_count_le' {k : KeyLogState} {lab : String} {n : Nat}
    (h : countLabel k.lines lab ≤ n) (r : List Nat) (lab' : String)
    (o : Option (List Nat)) :
    countLabel (optWrite k r lab' o).lines lab ≤ n + (if lab' = lab then 1 else 0) :=
  le_trans (optWrite_count_le k r lab' o lab) (Nat.add_le_add_right h _)

lemma optWrite_mem {k : KeyLogState} {r : List Nat} {lab' : String}
    {o : Option (List Nat)} {l : KeyLogLine}
    (h : l ∈ (optWrite k r lab' o).lines) :
    l ∈ k.lines ∨ l.clientRandomHex = hexlify r := by
  cases o with
  | none => exact .inl h
  | some s =>
    by_cases hl : k.hasLogger
    · simp only [optWrite, writeKeyLog, hl, if_true] at h
      rcases List.mem_append.mp h with h1 | h1
      · exact .inl h1
      · simp only [List.mem_singleton] at h1
        rw [h1]
        exact .inr rfl
    · simp only [optWrite, writeKeyLog, hl] at h
      simp at h
      exact .inl h

lemma indicator_sum_le (lab : String) :
    (if "CLIENT_EARLY_TRAFFIC_SECRET" = lab then 1 else 0) +
      (if "CLIENT_HANDSHAKE_TRAFFIC_SECRET" = lab then 1 else 0) +
      (if "SERVER_HANDSHAKE_TRAFFIC_SECRET" = lab then 1 else 0) +
      (if "EXPORTER_SECRET" = lab then 1 else 0) +
      (if "CLIENT_TRAFFIC_SECRET_0" = lab then 1 else 0) +
      (if "SERVER_TRAFFIC_SECRET_0" = lab then 1 else 0) ≤ 1 := by
  by_cases h1 : "CLIENT_EARLY_TRAFFIC_SECRET" = lab
  · subst h1; decide
  by_cases h2 : "CLIENT_HANDSHAKE_TRAFFIC_SECRET" = lab
  · subst h2; decide
  by_cases h3 : "SERVER_HANDSHAKE_TRAFFIC_SECRET" = lab
  · subst h3; decide
  by_cases h4 : "EXPORTER_SECRET" = lab
  · subst h4; decide
  by_cases h5 : "CLIENT_TRAFFIC_SECRET_0" = lab
  · subst h5; decide
  by_cases h6 : "SERVER_TRAFFIC_SECRET_0" = lab
  · subst h6; decide
  simp [h1, h2, h3, h4, h5, h6]

lemma handshakeKeyLogWrites_count (k : KeyLogState) (st : ConnectionState)
    (sec : Secrets) (lab : String) :
    countLabel (handshakeKeyLogWrites k st sec).lines lab ≤
      countLabel k.lines lab + 1 := by
  have h1 := optWrite_count_le' (le_refl (countLabel k.lines lab))
    st.clientRandom "CLIENT_EARLY_TRAFFIC_SECRET" sec.clientEarlyTrafficSecret
  have h2 := optWrite_count_le' h1
    st.clientRandom "CLIENT_HANDSHAKE_TRAFFIC_SECRET" sec.clientHandshakeTrafficSecret
  have h3 := optWrite_count_le' h2
    st.clientRandom "SERVER_HANDSHAKE_TRAFFIC_SECRET" sec.serverHandshakeTrafficSecret
  have h4 := optWrite_count_le' h3
    st.clientRandom "EXPORTER_SECRET" sec.exporterMasterSecret
  have h5 := optWrite_count_le' h4
    st.clientRandom "CLIENT_TRAFFIC_SECRET_0" sec.clientAppTrafficSecret
  have h6 := optWrite_count_le' h5
    st.clientRandom "SERVER_TRAFFIC_SECRET_0" sec.serverAppTrafficSecret
  have hs := indicator_sum_le lab
  simp only [handshakeKeyLogWrites]
  omega

end FizzTool

namespace FizzTool

lemma http_read_match_fallback {st : HTTPServerState} {chunk : List Char}
    (h5 : 5 ≤ (st.requestBuf ++ chunk).length)
    (heq : (st.requestBuf ++ chunk).take 5 = "GET /".data)
    (ht : st.transportPresent = false) :
    FizzHTTPServer.readBufferAvailable st chunk =
      { st with
        requestBuf := st.requestBuf ++ chunk,
        sentResponses := st.sentResponses ++
          [⟨"HTTP/1.0 200 OK", "text/plain",
            (respondFallbackSuccess st).length, respondFallbackSuccess st⟩],
        closed := true } := by
  have h5' : 5 ≤ st.requestBuf.length + chunk.length := by
    rw [← List.length_append]; exact h5
  simp [FizzHTTPServer.readBufferAvailable, h5', heq, ht,
    respondFallbackSuccess, fallbackSummaryLines]

lemma readBufferAvailable_cases (st : HTTPServerState) (c : List Char) :
    (FizzHTTPServer.readBufferAvailable st c).conn = st.conn ∧
    (FizzHTTPServer.readBufferAvailable st c).secrets = st.secrets ∧
    ((FizzHTTPServer.readBufferAvailable st c).keyLog = st.keyLog ∨
      ((FizzHTTPServer.readBufferAvailable st c).keyLog =
        handshakeKeyLogWrites st.keyLog st.conn st.secrets ∧
       (FizzHTTPServer.readBufferAvailable st c).closed = true)) ∧
    ((FizzHTTPServer.readBufferAvailable st c).closed = st.closed ∨
      (FizzHTTPServer.readBufferAvailable st c).closed = true) := by
  by_cases hlen : 5 ≤ (st.requestBuf ++ c).length
  · by_cases hm : (st.requestBuf ++ c).take 5 = "GET /".data
    · by_cases htp : st.transportPresent
      · rw [http_read_match hlen hm htp]
        exact ⟨rfl, rfl, .inr ⟨rfl, rfl⟩, .inr rfl⟩
      · rw [http_read_match_fallback hlen hm (by simpa using htp)]
        exact ⟨rfl, rfl, .inl rfl, .inr rfl⟩
    · rw [http_read_mismatch hlen hm]
      exact ⟨rfl, rfl, .inl rfl, .inl rfl⟩
  · rw [http_read_short (by omega)]
    exact ⟨rfl, rfl, .inl rfl, .inl rfl⟩

lemma httpStep_conn (st : HTTPServerState) (e : ConnEvent) :
    (httpStep st e).conn = st.conn := by
  cases e with
  | secretDerived l b => rfl
  | handshakeSuccess => rfl
  | bytesArrive c =>
    by_cases hc : st.closed
    · simp [httpStep, hc]
    · simp only [httpStep, hc, Bool.false_eq_true, if_false]
      exact (readBufferAvailable_cases st c).1

lemma runConn_conn (st : HTTPServerState) (es : List ConnEvent) :
    (runConn st es).conn = st.conn := by
  induction es generalizing st with
  | nil => rfl
  | cons e es ih =>
    rw [runConn_cons, ih, httpStep_conn]

lemma httpStep_random {st : HTTPServerState} (e : ConnEvent)
    (h : ∀ l ∈ st.keyLog.lines, l.clientRandomHex = hexlify st.conn.clientRandom) :
    ∀ l ∈ (httpStep st e).keyLog.lines,
      l.clientRandomHex = hexlify st.conn.clientRandom := by
  have hwrites : ∀ l ∈ (handshakeKeyLogWrites st.keyLog st.conn st.secrets).lines,
      l.clientRandomHex = hexlify st.conn.clientRandom := by
    intro l hl
    simp only [handshakeKeyLogWrites] at hl
    rcases optWrite_mem hl with hl | hl
    on_goal 2 => exact hl
    rcases optWrite_mem hl with hl | hl
    on_goal 2 => exact hl
    rcases optWrite_mem hl with hl | hl
    on_goal 2 => exact hl
    rcases optWrite_mem hl with hl | hl
    on_goal 2 => exact hl
    rcases optWrite_mem hl with hl | hl
    on_goal 2 => exact hl
    rcases optWrite_mem hl with hl | hl
    on_goal 2 => exact hl
    exact h l hl
  cases e with
  | secretDerived l b => exact h
  | handshakeSuccess =>
    intro l hl
    simp only [fizzHandshakeSuccessStep, httpStep, handshakeSuccessLog] at hl
    exact hwrites l hl
  | bytesArrive c =>
    by_cases hc : st.closed
    · simpa [httpStep, hc] using h
    · simp only [httpStep, hc, Bool.false_eq_true, if_false]
      rcases (readBufferAvailable_cases st c).2.2.1 with hk | ⟨hk, -⟩
      · rw [hk]; exact h
      · rw [hk]; exact hwrites

lemma runConn_random {st : HTTPServerState} (es : List ConnEvent)
    (h : ∀ l ∈ st.keyLog.lines, l.clientRandomHex = hexlify st.conn.clientRandom) :
    ∀ l ∈ (runConn st es).keyLog.lines,
      l.clientRandomHex = hexlify st.conn.clientRandom := by
  induction es generalizing st with
  | nil => exact h
  | cons e es ih =>
    rw [runConn_cons]
    have hstep := httpStep_random e h
    rw [← httpStep_conn st e] at hstep
    have := ih hstep
    rw [httpStep_conn] at this
    exact this

lemma runReads_count_bound {st : HTTPServerState} (cs : List (List Char)) (lab : String)
    (h2 : countLabel st.keyLog.lines lab ≤ 2)
    (h1 : st.closed = false → countLabel st.keyLog.lines lab ≤ 1) :
    countLabel (runConn st (cs.map ConnEvent.bytesArrive)).keyLog.lines lab ≤ 2 := by
  induction cs generalizing st with
  | nil => exact h2
  | cons c cs ih =>
    rw [List.map_cons, runConn_cons]
    by_cases hc : st.closed
    · have hs : httpStep st (ConnEvent.bytesArrive c) = st := by
        simp [httpStep, hc]
      rw [hs]
      exact ih h2 h1
    · have hs : httpStep st (ConnEvent.bytesArrive c) =
          FizzHTTPServer.readBufferAvailable st c := by
        simp [httpStep, hc]
      rw [hs]
      have hcf : st.closed = false := by simpa using hc
      have hle1 := h1 hcf
      rcases (readBufferAvailable_cases st c).2.2 with ⟨hk | ⟨hk, hcl⟩, hcl2⟩
      · refine ih (by rw [hk]; omega) ?_
        intro _
        rw [hk]
        exact hle1
      · refine ih ?_ ?_
        · rw [hk]
          have := handshakeKeyLogWrites_count st.keyLog st.conn st.secrets lab
          omega
        · intro hcl3
          rw [hcl] at hcl3
          simp at hcl3

end FizzTool

namespace FizzTool

/-- C2 fails as stated: in HTTP mode with key logging enabled, a connection
whose client handshake traffic secret was captured appends one line at
handshake success and a second line when the HTTP probe builds its response
body from the same summary routine — two lines for one (connection, label)
pair. -/
theorem claim_C2_counterexample :
    countLabel (runConn demoStart
        [ConnEvent.secretDerived .clientHandshakeTraffic [1, 2, 3],
         ConnEvent.handshakeSuccess,
         ConnEvent.bytesArrive "GET / HTTP/1.0\r\n".data]).keyLog.lines
      "CLIENT_HANDSHAKE_TRAFFIC_SECRET" = 2 := by
  decide

/-- C2 (amended): one invocation of the summary routine appends at most one
key-log line per label; over a connection trace of one handshake success
followed by arbitrary byte arrivals, each label receives at most two lines
(the second only when a matching GET re-runs the summary routine for the
HTTP response body); and every line ever appended carries the connection's
client random. -/
theorem claim_C2_keylog_lines :
    (∀ (k : KeyLogState) (st : ConnectionState) (sec : Secrets) (lab : String),
      countLabel (handshakeKeyLogWrites k st sec).lines lab ≤
        countLabel k.lines lab + 1) ∧
    (∀ (st0 : HTTPServerState) (cs : List (List Char)) (lab : String),
      st0.keyLog.lines = [] → st0.closed = false →
      countLabel (runConn st0 (ConnEvent.handshakeSuccess ::
        cs.map ConnEvent.bytesArrive)).keyLog.lines lab ≤ 2) ∧
    (∀ (st0 : HTTPServerState) (es : List ConnEvent),
      st0.keyLog.lines = [] →
      ∀ l ∈ (runConn st0 es).keyLog.lines,
        l.clientRandomHex = hexlify st0.conn.clientRandom) := by
  refine ⟨handshakeKeyLogWrites_count, ?_, ?_⟩
  · intro st0 cs lab hk hc
    rw [runConn_cons]
    have hcount := handshakeKeyLogWrites_count st0.keyLog st0.conn st0.secrets lab
    rw [hk] at hcount
    have hnil : countLabel [] lab = 0 := rfl
    rw [hnil, Nat.zero_add] at hcount
    refine runReads_count_bound cs lab ?_ ?_
    · show countLabel (handshakeKeyLogWrites st0.keyLog st0.conn st0.secrets).lines lab ≤ 2
      omega
    · intro _
      show countLabel (handshakeKeyLogWrites st0.keyLog st0.conn st0.secrets).lines lab ≤ 1
      exact hcount
  · intro st0 es hk
    refine runConn_random es ?_
    rw [hk]
    intro l hl
    exact absurd hl (List.not_mem_nil l)

end FizzTool

namespace FizzTool

lemma optWrite_hasLogger (k : KeyLogState) (r : List Nat) (lab : String)
    (o : Option (List Nat)) : (optWrite k r lab o).hasLogger = k.hasLogger := by
  cases o <;> by_cases hl : k.hasLogger <;> simp [optWrite, writeKeyLog, hl]

lemma optWrite_lines (k : KeyLogState) (r : List Nat) (lab : String)
    (o : Option (List Nat)) :
    (optWrite k r lab o).lines =
      k.lines ++ (if k.hasLogger then optLine r lab o else []) := by
  cases o <;> by_cases hl : k.hasLogger <;> simp [optWrite, writeKeyLog, optLine, hl]

lemma handshakeKeyLogWrites_lines (k : KeyLogState) (st : ConnectionState)
    (sec : Secrets) :
    (handshakeKeyLogWrites k st sec).lines =
      k.lines ++ (if k.hasLogger then expectedKeyLogBatch st sec else []) := by
  simp only [handshakeKeyLogWrites, optWrite_lines, optWrite_hasLogger,
    expectedKeyLogBatch]
  by_cases hl : k.hasLogger <;> simp [hl, List.append_assoc]

lemma optLine_mem {r : List Nat} {lab : String} {o : Option (List Nat)}
    {l : KeyLogLine} (h : l ∈ optLine r lab o) : l.label = lab := by
  cases o with
  | none => simp [optLine] at h
  | some s =>
    simp only [optLine, List.mem_singleton] at h
    rw [h]

/-- C3 fails as stated: a secret-derivation event stores the secret but
forwards nothing to the key log at event time — the key-log file stays empty
until the summary routine runs. -/
theorem claim_C3_counterexample :
    (runConn demoStart
        [ConnEvent.secretDerived .clientHandshakeTraffic [5, 6]]).keyLog.lines = [] ∧
    (runConn demoStart
        [ConnEvent.secretDerived .clientHandshakeTraffic
          [5, 6]]).secrets.clientHandshakeTrafficSecret = some [5, 6] :=
  ⟨rfl, rfl⟩

/-- C3 (amended): a secret-derivation event stores the secret under its label
if unset (populated labels are never overwritten) and appends nothing to the
key log; forwarding happens as one batch when the summary routine runs — one
line per populated secret among exactly the six labels
CLIENT_EARLY_TRAFFIC_SECRET, CLIENT_HANDSHAKE_TRAFFIC_SECRET,
SERVER_HANDSHAKE_TRAFFIC_SECRET, EXPORTER_SECRET, CLIENT_TRAFFIC_SECRET_0
and SERVER_TRAFFIC_SECRET_0, in that fixed order; the other four labels are
never forwarded. -/
theorem claim_C3_secret_flow :
    (∀ (st : HTTPServerState) (l : SecretLabel) (b : List Nat),
      (secretAvailableStep st l b).keyLog = st.keyLog) ∧
    (∀ (sec : Secrets) (l : SecretLabel) (b : List Nat),
      (secretOfLabel sec l = none → secretOfLabel (sec.store l b) l = some b) ∧
      (∀ v, secretOfLabel sec l = some v → sec.store l b = sec)) ∧
    (∀ (k : KeyLogState) (st : ConnectionState) (sec : Secrets),
      (handshakeKeyLogWrites k st sec).lines =
        k.lines ++ (if k.hasLogger then expectedKeyLogBatch st sec else [])) ∧
    (∀ (st : ConnectionState) (sec : Secrets) (l : KeyLogLine),
      l ∈ expectedKeyLogBatch st sec →
      l.label ∈ ["CLIENT_EARLY_TRAFFIC_SECRET", "CLIENT_HANDSHAKE_TRAFFIC_SECRET",
        "SERVER_HANDSHAKE_TRAFFIC_SECRET", "EXPORTER_SECRET",
        "CLIENT_TRAFFIC_SECRET_0", "SERVER_TRAFFIC_SECRET_0"]) := by
  refine ⟨fun st l b => rfl, ?_, handshakeKeyLogWrites_lines, ?_⟩
  · intro sec l b
    refine ⟨fun h => ?_, fun v h => ?_⟩ <;>
      cases l <;> simp only [secretOfLabel] at h <;>
        simp [Secrets.store, secretOfLabel, h]
  · intro st sec l hl
    simp only [expectedKeyLogBatch, List.mem_append] at hl
    rcases hl with ((((h | h) | h) | h) | h) | h <;> simp [optLine_mem h]

end FizzTool

namespace FizzTool

/-- Witness for the amended C2 on concrete states. -/
theorem claim_C2_keylog_lines_witness :
    countLabel (handshakeKeyLogWrites ⟨true, []⟩ demoConn demoSecrets).lines
        "CLIENT_HANDSHAKE_TRAFFIC_SECRET" ≤
      countLabel (⟨true, []⟩ : KeyLogState).lines "CLIENT_HANDSHAKE_TRAFFIC_SECRET" + 1 ∧
    countLabel (runConn demoStart (ConnEvent.handshakeSuccess ::
        ["GET / HTTP/1.0\r\n".data].map ConnEvent.bytesArrive)).keyLog.lines
      "CLIENT_HANDSHAKE_TRAFFIC_SECRET" ≤ 2 ∧
    demoLine.clientRandomHex = hexlify demoStart.conn.clientRandom := by
  refine ⟨?_, ?_, ?_⟩
  · exact claim_C2_keylog_lines.1 ⟨true, []⟩ demoConn demoSecrets
      "CLIENT_HANDSHAKE_TRAFFIC_SECRET"
  · exact claim_C2_keylog_lines.2.1 demoStart ["GET / HTTP/1.0\r\n".data]
      "CLIENT_HANDSHAKE_TRAFFIC_SECRET" rfl rfl
  · exact claim_C2_keylog_lines.2.2 demoStart demoTrace rfl demoLine (by decide)

/-- Witness for the amended C3 on concrete states. -/
theorem claim_C3_secret_flow_witness :
    (secretAvailableStep demoStart .clientHandshakeTraffic [5, 6]).keyLog =
      demoStart.keyLog ∧
    secretOfLabel (Secrets.store {} .clientHandshakeTraffic [5, 6])
      .clientHandshakeTraffic = some [5, 6] ∧
    (handshakeKeyLogWrites ⟨true, []⟩ demoConn demoSecrets).lines =
      (⟨true, []⟩ : KeyLogState).lines ++
        (if (⟨true, []⟩ : KeyLogState).hasLogger then
          expectedKeyLogBatch demoConn demoSecrets else []) ∧
    demoLine.label ∈ ["CLIENT_EARLY_TRAFFIC_SECRET", "CLIENT_HANDSHAKE_TRAFFIC_SECRET",
      "SERVER_HANDSHAKE_TRAFFIC_SECRET", "EXPORTER_SECRET",
      "CLIENT_TRAFFIC_SECRET_0", "SERVER_TRAFFIC_SECRET_0"] := by
  refine ⟨?_, ?_, ?_, ?_⟩
  · exact claim_C3_secret_flow.1 demoStart .clientHandshakeTraffic [5, 6]
  · exact (claim_C3_secret_flow.2.1 {} .clientHandshakeTraffic [5, 6]).1 rfl
  · exact claim_C3_secret_flow.2.2.1 ⟨true, []⟩ demoConn demoSecrets
  · exact claim_C3_secret_flow.2.2.2 demoConn demoSecrets demoLine (by decide)

end FizzTool
